import Mathlib

/-!
A verification development for the tgfeed sync-and-dedup engine.

The Python sources are shallowly embedded: SQL tables become lists of row
records, `UPDATE`/`DELETE` statements become row-wise functions, and the
relevant script bodies become pure functions over that state.  Python strings
are modelled as `List Char` (named `Str` below) so that every string operation
reduces inside the kernel; SHA-256 is implemented in full over byte lists so
that concrete digests can be computed by `decide`.
-/

set_option maxRecDepth 100000
set_option maxHeartbeats 4000000

namespace Tgfeed

/-! ## SHA-256 over byte lists (hashlib.sha256) -/

def w32 : Nat := 4294967296

def add32 (a b : Nat) : Nat := (a + b) % w32

def rotr32 (n x : Nat) : Nat := ((x >>> n) ||| (x <<< (32 - n))) % w32

def sigUpper0 (x : Nat) : Nat := (rotr32 2 x) ^^^ (rotr32 13 x) ^^^ (rotr32 22 x)

def sigUpper1 (x : Nat) : Nat := (rotr32 6 x) ^^^ (rotr32 11 x) ^^^ (rotr32 25 x)

def sigLower0 (x : Nat) : Nat := (rotr32 7 x) ^^^ (rotr32 18 x) ^^^ (x >>> 3)

def sigLower1 (x : Nat) : Nat := (rotr32 17 x) ^^^ (rotr32 19 x) ^^^ (x >>> 10)

def chF (x y z : Nat) : Nat := (x &&& y) ^^^ ((x ^^^ 4294967295) &&& z)

def majF (x y z : Nat) : Nat := (x &&& y) ^^^ (x &&& z) ^^^ (y &&& z)

/-- The 64 SHA-256 round constants (FIPS 180-4), in decimal. -/
def shaK : List Nat :=
  [1116352408, 1899447441, 3049323471, 3921009573, 961987163,
   1508970993, 2453635748, 2870763221, 3624381080, 310598401,
   607225278, 1426881987, 1925078388, 2162078206, 2614888103,
   3248222580, 3835390401, 4022224774, 264347078, 604807628,
   770255983, 1249150122, 1555081692, 1996064986, 2554220882,
   2821834349, 2952996808, 3210313671, 3336571891, 3584528711,
   113926993, 338241895, 666307205, 773529912, 1294757372,
   1396182291, 1695183700, 1986661051, 2177026350, 2456956037,
   2730485921, 2820302411, 3259730800, 3345764771, 3516065817,
   3600352804, 4094571909, 275423344, 430227734, 506948616,
   659060556, 883997877, 958139571, 1322822218, 1537002063,
   1747873779, 1955562222, 2024104815, 2227730452, 2361852424,
   2428436474, 2756734187, 3204031479, 3329325298]

/-- The initial SHA-256 state (FIPS 180-4), in decimal. -/
def shaInit : List Nat :=
  [1779033703, 3144134277, 1013904242, 2773480762,
   1359893119, 2600822924, 528734635, 1541459225]

def lenBytesBE (n : Nat) : List Nat :=
  [(n >>> 56) % 256, (n >>> 48) % 256, (n >>> 40) % 256, (n >>> 32) % 256,
   (n >>> 24) % 256, (n >>> 16) % 256, (n >>> 8) % 256, n % 256]

def shaPad (msg : List Nat) : List Nat :=
  let l := msg.length
  let k := (119 - l % 64) % 64
  msg ++ 128 :: List.replicate k 0 ++ lenBytesBE (l * 8)

def toBlocksAux : Nat → List Nat → List (List Nat)
  | 0, _ => []
  | _, [] => []
  | fuel + 1, bs => bs.take 64 :: toBlocksAux fuel (bs.drop 64)

def toBlocks (bs : List Nat) : List (List Nat) := toBlocksAux bs.length bs

def words16 (block : List Nat) : List Nat :=
  (List.range 16).map fun i =>
    block.getD (4 * i) 0 * 16777216 + block.getD (4 * i + 1) 0 * 65536 +
      block.getD (4 * i + 2) 0 * 256 + block.getD (4 * i + 3) 0

def extendW : Nat → List Nat → List Nat
  | 0, ws => ws
  | n + 1, ws =>
    let i := ws.length
    let nw := add32 (sigLower1 (ws.getD (i - 2) 0))
      (add32 (ws.getD (i - 7) 0) (add32 (sigLower0 (ws.getD (i - 15) 0)) (ws.getD (i - 16) 0)))
    extendW n (ws ++ [nw])

def roundStep (s : Nat × Nat × Nat × Nat × Nat × Nat × Nat × Nat) (kw : Nat × Nat) :
    Nat × Nat × Nat × Nat × Nat × Nat × Nat × Nat :=
  let (a, b, c, d, e, f, g, h) := s
  let (k, w) := kw
  let t1 := add32 h (add32 (sigUpper1 e) (add32 (chF e f g) (add32 k w)))
  let t2 := add32 (sigUpper0 a) (majF a b c)
  (add32 t1 t2, a, b, c, add32 d t1, e, f, g)

def shaCompress (H : List Nat) (block : List Nat) : List Nat :=
  let ws := extendW 48 (words16 block)
  let s0 := (H.getD 0 0, H.getD 1 0, H.getD 2 0, H.getD 3 0,
             H.getD 4 0, H.getD 5 0, H.getD 6 0, H.getD 7 0)
  let r := (shaK.zip ws).foldl roundStep s0
  let (a, b, c, d, e, f, g, h) := r
  [add32 (H.getD 0 0) a, add32 (H.getD 1 0) b, add32 (H.getD 2 0) c, add32 (H.getD 3 0) d,
   add32 (H.getD 4 0) e, add32 (H.getD 5 0) f, add32 (H.getD 6 0) g, add32 (H.getD 7 0) h]

def hexDigit (n : Nat) : Char := if n < 10 then Char.ofNat (48 + n) else Char.ofNat (87 + n)

def word2hex (w : Nat) : List Char :=
  (List.range 8).map fun i => hexDigit ((w >>> ((7 - i) * 4)) % 16)

/-- `hashlib.sha256(bytes).hexdigest()`: the lowercase hex digest, as a char list. -/
def sha256Hex (msg : List Nat) : List Char :=
  (((toBlocks (shaPad msg)).foldl shaCompress shaInit).map word2hex).flatten

/-! ## Python strings as char lists -/

/-- A Python `str`, modelled as its list of code points. -/
abbrev Str := List Char

/-- ASCII fragment of Python `str.lower`. -/
def pyLowerChar (c : Char) : Char :=
  if 65 ≤ c.toNat ∧ c.toNat ≤ 90 then Char.ofNat (c.toNat + 32) else c

def pyLower (s : Str) : Str := s.map pyLowerChar

def isPySpace (c : Char) : Bool :=
  c = ' ' || c = '\t' || c = '\n' || c = '\r' || c = Char.ofNat 11 || c = Char.ofNat 12

/-- Python `str.strip()` (whitespace from both ends). -/
def pyStrip (s : Str) : Str :=
  ((s.dropWhile isPySpace).reverse.dropWhile isPySpace).reverse

/-- Python `str.split(',')`. -/
def splitComma : Str → List Str
  | [] => [[]]
  | c :: rest =>
    let r := splitComma rest
    if c = ',' then [] :: r
    else match r with
      | [] => [[c]]
      | p :: ps => (c :: p) :: ps

/-- Lexicographic order on code points, as Python compares `str` values. -/
def strLt : Str → Str → Bool
  | [], [] => false
  | [], _ :: _ => true
  | _ :: _, [] => false
  | a :: as, b :: bs => a < b || (a = b && strLt as bs)

def strLe (a b : Str) : Bool := strLt a b || a = b

/-- Python `','.join(parts)`. -/
def joinComma : List Str → Str
  | [] => []
  | [p] => p
  | p :: ps => p ++ ',' :: joinComma ps

/-- Python `''.join(parts)`. -/
def joinStr (ps : List Str) : Str := ps.flatten

/-- Python `sorted(xs)` on strings (code-point lexicographic). -/
def pySortedStr (xs : List Str) : List Str :=
  List.insertionSort (fun a b => strLe a b = true) xs

/-- UTF-8 encoding of one code point (Python `str.encode('utf-8')`). -/
def utf8Char (c : Char) : List Nat :=
  let n := c.toNat
  if n < 128 then [n]
  else if n < 2048 then [192 + n / 64, 128 + n % 64]
  else if n < 65536 then [224 + n / 4096, 128 + n / 64 % 64, 128 + n % 64]
  else [240 + n / 262144, 128 + n / 4096 % 64, 128 + n / 64 % 64, 128 + n % 64]

def utf8Encode (s : Str) : List Nat := (s.map utf8Char).flatten

/-- SHA-256 hex digest of the UTF-8 encoding of a string. -/
def sha256HexOfStr (s : Str) : Str := sha256Hex (utf8Encode s)

/-! ## generate_content_hashes.py: normalize_keywords / compute_hash -/

/-- `normalize_keywords` from generate_content_hashes.py: split on commas, strip,
lowercase, drop empties, deduplicate, sort ascending, rejoin with commas. -/
def normalize_keywords (keywords_str : Str) : Str :=
  let keywords := (splitComma keywords_str).filterMap fun k =>
    let t := pyStrip k
    if t = [] then none else some (pyLower (pyStrip k))
  joinComma (pySortedStr keywords.eraseDups)

/-- `compute_hash` from generate_content_hashes.py: SHA-256 of the normalized
keyword string, UTF-8 encoded. -/
def compute_hash (normalized_text : Str) : Str :=
  sha256HexOfStr (normalize_keywords normalized_text)

/-! ## generate_content_hashes.py: the per-album media hash

The media directory is modelled as an association list from relative media
paths to file contents (byte lists). -/

abbrev FileSys := List (Str × List Nat)

def fsRead (fs : FileSys) (p : Str) : Option (List Nat) :=
  (fs.find? fun e => e.1 == p).map (·.2)

/-- `sha256_file`: SHA-256 hex digest of a file's bytes, `none` when the file
cannot be read. -/
def sha256_file (fs : FileSys) (p : Str) : Option Str := (fsRead fs p).map sha256Hex

/-- The fields of an album member row used by `generate_media_hashes`. -/
structure MediaMsg where
  id : Nat
  media_path : Option Str := none
  date : Int := 0
  grouped_id : Option Int := none
deriving DecidableEq

/-- `media_paths = sorted([m["media_path"] for m in album_msgs if m.get("media_path")])`
(a missing or empty path is falsy and dropped; the PATHS are sorted). -/
def albumMediaPaths (album_msgs : List MediaMsg) : List Str :=
  pySortedStr (album_msgs.filterMap fun m => match m.media_path with
    | some p => if p = [] then none else some p
    | none => none)

/-- The hash-each-file loop of `generate_media_hashes`; `none` when some file
is missing or unreadable (`all_files_exist` turns false, the album is skipped). -/
def hashAlbumFiles (fs : FileSys) : List Str → Option (List Str)
  | [] => some []
  | p :: ps => match sha256_file fs p with
    | none => none
    | some h => (hashAlbumFiles fs ps).map (h :: ·)

/-- The `media_hash` computed for one album by `generate_media_hashes`:
`combined = ''.join(file_hashes)` in MEDIA-PATH-sorted order, then
`sha256(combined.encode('utf-8'))`.  `none` when there is nothing to hash or a
file is unavailable (the album is skipped, not hashed). -/
def albumMediaHash (fs : FileSys) (album_msgs : List MediaMsg) : Option Str :=
  let media_paths := albumMediaPaths album_msgs
  if media_paths = [] then none
  else match hashAlbumFiles fs media_paths with
    | none => none
    | some file_hashes => some (sha256HexOfStr (joinStr file_hashes))

/-- Modelled from the spec: the combine rule as the specification words it —
"Compute SHA-256 of each file in the album, sort the resulting hex DIGESTS
lexicographically, concatenate them, SHA-256 the concatenation." -/
def specAlbumMediaHash (fs : FileSys) (album_msgs : List MediaMsg) : Option Str :=
  let media_paths := albumMediaPaths album_msgs
  if media_paths = [] then none
  else match hashAlbumFiles fs media_paths with
    | none => none
    | some file_hashes => some (sha256HexOfStr (joinStr (pySortedStr file_hashes)))

/-! ## database.py: first-writer hash registries -/

/-- One row of `content_hashes` / `media_hashes` (PK `(hash, group_id)`). -/
structure HashRow where
  hash : Str
  group_id : Int
  channel_id : Int
  message_id : Nat
  message_date : Int
  created_at : Int
deriving DecidableEq

/-- `SELECT channel_id, message_id FROM ... WHERE hash = ? AND group_id = ?`. -/
def findHashRow (rows : List HashRow) (h : Str) (g : Int) : Option HashRow :=
  rows.find? fun r => r.hash == h && r.group_id == g

/-- Common body of `register_content_hash` / `register_media_hash`: if a row
with the same `(hash, group_id)` exists return its coordinates and change
nothing, otherwise insert a new row and return nothing. -/
def registerHashRow (rows : List HashRow) (h : Str) (group_id channel_id : Int)
    (message_id : Nat) (message_date now : Int) : Option (Int × Nat) × List HashRow :=
  match findHashRow rows h group_id with
  | some existing => (some (existing.channel_id, existing.message_id), rows)
  | none => (none, rows ++ [⟨h, group_id, channel_id, message_id, message_date, now⟩])

/-- `register_content_hash` from database.py (acts on `content_hashes`). -/
def register_content_hash (content_hashes : List HashRow) (content_hash : Str)
    (channel_id : Int) (message_id : Nat) (message_date : Int) (group_id : Int)
    (now : Int) : Option (Int × Nat) × List HashRow :=
  registerHashRow content_hashes content_hash group_id channel_id message_id message_date now

/-- `register_media_hash` from database.py (acts on `media_hashes`). -/
def register_media_hash (media_hashes : List HashRow) (media_hash : Str)
    (channel_id : Int) (message_id : Nat) (message_date : Int) (group_id : Int)
    (now : Int) : Option (Int × Nat) × List HashRow :=
  registerHashRow media_hashes media_hash group_id channel_id message_id message_date now

/-! ## database.py: per-channel message tables

One row of a `channel_<id>` table.  Nullable SQL columns are `Option`s; the
default values mirror the schema's column defaults. -/

structure Row where
  id : Nat
  date : Option Int := none
  message : Option Str := none
  media_type : Option Str := none
  media_path : Option Str := none
  video_thumbnail_path : Option Str := none
  grouped_id : Option Int := none
  created_at : Option Int := none
  read : Option Int := some 0
  read_at : Option Int := none
  bookmarked : Option Int := some 0
  anchored : Option Int := some 0
  hidden : Option Int := some 0
  ai_summary : Option Str := none
  content_hash : Option Str := none
  content_hash_pending : Option Int := some 1
  duplicate_of_channel : Option Int := none
  duplicate_of_message : Option Int := none
  media_hash : Option Str := none
  media_hash_pending : Option Int := some 1
  read_in_tg : Option Int := some 0
deriving DecidableEq

/-- Row-wise effect of `UPDATE t SET read = 1, read_at = ? WHERE id IN (...) AND read = 0`
(`mark_messages_read` in database.py). -/
def markMessagesReadRow (message_ids : List Nat) (now : Int) (r : Row) : Row :=
  if r.id ∈ message_ids ∧ r.read = some 0 then {r with read := some 1, read_at := some now}
  else r

/-- `mark_messages_read` from database.py, restricted to one channel table. -/
def mark_messages_read (message_ids : List Nat) (now : Int) (table : List Row) : List Row :=
  table.map (markMessagesReadRow message_ids now)

/-- Row-wise effect of `UPDATE t SET read = 1 WHERE id <= ? AND read = 0`
(`mark_messages_read_up_to` in database.py — note: `read_at` is NOT written). -/
def markReadUpToRow (max_id : Nat) (r : Row) : Row :=
  if r.id ≤ max_id ∧ r.read = some 0 then {r with read := some 1} else r

/-- `mark_messages_read_up_to` from database.py. -/
def mark_messages_read_up_to (max_id : Nat) (table : List Row) : List Row :=
  table.map (markReadUpToRow max_id)

/-- `update_content_hash` from database.py:
`SET content_hash = ?, ai_summary = ?, content_hash_pending = 0 WHERE id = ?`. -/
def update_content_hash (content_hash : Str) (ai_summary : Option Str) (message_id : Nat)
    (table : List Row) : List Row :=
  table.map fun r =>
    if r.id = message_id then
      {r with content_hash := some content_hash, ai_summary := ai_summary,
              content_hash_pending := some 0}
    else r

/-- `mark_as_duplicate` from database.py:
`SET duplicate_of_channel = ?, duplicate_of_message = ? WHERE id = ?`. -/
def mark_as_duplicate (original_channel : Int) (original_message : Nat) (message_id : Nat)
    (table : List Row) : List Row :=
  table.map fun r =>
    if r.id = message_id then
      {r with duplicate_of_channel := some original_channel,
              duplicate_of_message := some (Int.ofNat original_message)}
    else r

/-- The inline statement of `generate_text_hashes` on a tag-exclusion match:
`UPDATE channel_k SET read = 1, read_at = ? WHERE id = ? AND read = 0`. -/
def autoExcludeRead (now : Int) (message_id : Nat) (table : List Row) : List Row :=
  table.map fun r =>
    if r.id = message_id ∧ r.read = some 0 then {r with read := some 1, read_at := some now}
    else r

/-! ## cleanup.py: two-phase retention -/

/-- SQL `COALESCE(a, b)`. -/
def sqlCoalesce (a b : Option Int) : Option Int :=
  match a with
  | some v => some v
  | none => b

/-- SQL `COALESCE(read_at, created_at) < cutoff` (NULL compares as false). -/
def coalesceLt (r : Row) (cutoff : Int) : Bool :=
  match sqlCoalesce r.read_at r.created_at with
  | some v => v < cutoff
  | none => false

/-- SQL `bookmarked = 0 OR bookmarked IS NULL`. -/
def notBookmarked (r : Row) : Bool := r.bookmarked == some 0 || r.bookmarked == none

/-- Phase-1 selection of `cleanup_old_messages`: media files deleted 7 days
after reading. -/
def phase1Cond (media_cutoff : Int) (r : Row) : Bool :=
  r.read == some 1 && r.media_path != none && coalesceLt r media_cutoff && notBookmarked r

/-- Phase-1 update: `SET media_path = NULL, video_thumbnail_path = NULL` on the
selected rows. -/
def cleanupPhase1Row (media_cutoff : Int) (r : Row) : Row :=
  if phase1Cond media_cutoff r then {r with media_path := none, video_thumbnail_path := none}
  else r

/-- `SELECT MAX(id)`, run through Python truthiness
(`max_id_row[0] if max_id_row and max_id_row[0] else None`): an empty table or
a maximum of 0 both give `None`, skipping phase 2. -/
def phase2MaxId (table : List Row) : Option Nat :=
  match (table.map (·.id)).max? with
  | some m => if m = 0 then none else some m
  | none => none

/-- Phase-2 deletion condition of `cleanup_old_messages`: read rows older than
30 days, never the latest row, never bookmarked rows.  (No condition on
`anchored`.) -/
def phase2Cond (message_cutoff : Int) (max_id : Nat) (r : Row) : Bool :=
  r.read == some 1 && coalesceLt r message_cutoff && r.id != max_id && notBookmarked r

/-- One channel pass of `cleanup_old_messages`: phase 1 clears media columns,
phase 2 deletes old read rows (skipped entirely when `MAX(id)` is falsy). -/
def cleanup_old_messages_channel (media_cutoff message_cutoff : Int) (table : List Row) :
    List Row :=
  let t1 := table.map (cleanupPhase1Row media_cutoff)
  match phase2MaxId t1 with
  | none => t1
  | some max_id => t1.filter fun r => !phase2Cond message_cutoff max_id r

/-! ## database.py / generate_content_hashes.py: tag exclusions and the
text-hash step -/

/-- `{t.strip().lower() for t in s.split(',') if t.strip()}` — the token set of
a comma-separated tag string (as a list with membership semantics). -/
def tagTokens (s : Str) : List Str :=
  (splitComma s).filterMap fun t =>
    let t' := pyStrip t
    if t' = [] then none else some (pyLower (pyStrip t))

/-- `Database.check_tag_exclusions`: true when the summary's token set is a
superset of some exclusion group's (non-empty) token set. -/
def check_tag_exclusions (ai_summary : Str) (exclusions : List Str) : Bool :=
  if ai_summary = [] then false
  else exclusions.any fun exc =>
    let exc_tags := tagTokens exc
    !exc_tags.isEmpty && exc_tags.all fun t => (tagTokens ai_summary).contains t

/-- The fields of a pending message handed to the text-hash loop. -/
structure PendingMsg where
  id : Nat
  message : Str := []
  date : Int := 0
deriving DecidableEq

/-- The tail of the `generate_text_hashes` loop body, from `compute_hash`
onwards: either the tag-exclusion branch (auto-mark read, store summary+hash,
do NOT register) or the registration branch (register; mark duplicate when an
original exists; store summary+hash). -/
def textHashStep (exclusion_groups : List Str) (group_id channel_id : Int) (now : Int)
    (msg : PendingMsg) (ai_summary : Str) (table : List Row)
    (content_hashes : List HashRow) : List Row × List HashRow :=
  let content_hash := compute_hash ai_summary
  if !exclusion_groups.isEmpty && check_tag_exclusions ai_summary exclusion_groups then
    (update_content_hash content_hash (some ai_summary) msg.id (autoExcludeRead now msg.id table),
     content_hashes)
  else
    match register_content_hash content_hashes content_hash channel_id msg.id msg.date
        group_id now with
    | (some original, reg') =>
      (update_content_hash content_hash (some ai_summary) msg.id
        (mark_as_duplicate original.1 original.2 msg.id table), reg')
    | (none, reg') => (update_content_hash content_hash (some ai_summary) msg.id table, reg')

/-! ## tg_daemon.py: RPC dispatch and `_rpc_download_media` -/

/-- The method names for which tg_daemon.py defines an `_rpc_<name>` handler
(`getattr(self, f"_rpc_{method}", None)`). -/
def rpcMethods : List Str :=
  ["ping".data, "get_clients".data, "iter_dialogs".data, "download_profile_photo".data,
   "iter_messages".data, "get_messages".data, "download_media".data,
   "send_read_acknowledge".data, "get_read_state".data]

/-- Outcome of invoking an `_rpc_*` handler once. -/
inductive HandlerOutcome where
  | ok
  | floodWait (seconds : Nat)
  | typeErr (msg : Str)
  | exn (msg : Str)
deriving DecidableEq

/-- One JSON response line of the daemon. -/
structure RpcResponse where
  id : Option Nat
  result : Bool := false
  error : Option Str := none
  flood_wait_seconds : Option Nat := none
deriving DecidableEq

/-- `_dispatch_rpc` from tg_daemon.py, together with the number of handler
invocations it performs (the source awaits the handler exactly once; a
`FloodWaitError` becomes the structured `flood_wait` response, never a retry). -/
def dispatch_rpc (req_id : Option Nat) (method : Str) (handler : HandlerOutcome) :
    RpcResponse × Nat :=
  if rpcMethods.contains method then
    match handler with
    | .ok => ({id := req_id, result := true}, 1)
    | .floodWait s =>
      ({id := req_id, error := some "flood_wait".data, flood_wait_seconds := some s}, 1)
    | .typeErr m => ({id := req_id, error := some ("Invalid params: ".data ++ m)}, 1)
    | .exn m => ({id := req_id, error := some m}, 1)
  else ({id := req_id, error := some ("Unknown method: ".data ++ method)}, 0)

/-- What `_rpc_download_media` asks of the upstream session. -/
inductive UpstreamCall where
  | getMessages (message_id : Nat)
  | downloadMedia (bytes : Nat)
deriving DecidableEq

/-- Environment of one `_rpc_download_media` call.  `md5hex` stands for
`hashlib.md5(chunk).hexdigest()`; `backupIndex` is the channel's
`channel_backup_hash_<id>` table (hash → file_path) and `disk` the backup files
actually present, with their contents. -/
structure DownloadEnv where
  channel_id : Nat
  message_id : Nat
  messageExists : Bool := true
  hasMedia : Bool := true
  mediaSize : Option Nat := none
  fileBytes : List Nat := []
  remoteName : Str := []
  downloadOk : Bool := true
  md5hex : List Nat → Str
  backupIndex : List (Str × Str) := []
  disk : List (Str × List Nat) := []

/-- Result of `_rpc_download_media`.  A returned path `f"{channel_id}/{name}"`
is modelled as the pair `(channel_id, name)`; `savedBytes` is the content of
the file at that path after the call. -/
structure DownloadResult where
  path : Option (Nat × Str)
  from_backup : Bool := false
  error : Option Str := none
  savedBytes : Option (List Nat) := none
  upstream : List UpstreamCall := []
deriving DecidableEq

def HASH_SIZE_THRESHOLD : Nat := 65536

/-- `compute_file_hash` from tg_daemon.py: MD5 of the first 64 KiB, `none` for
files of at most 64 KiB. -/
def compute_file_hash (md5hex : List Nat → Str) (bytes : List Nat) : Option Str :=
  if bytes.length ≤ HASH_SIZE_THRESHOLD then none
  else some (md5hex (bytes.take HASH_SIZE_THRESHOLD))

/-- `find_backup_by_hash` from database.py:
`SELECT file_path FROM channel_backup_hash_<id> WHERE hash = ? LIMIT 1`. -/
def find_backup_by_hash (backupIndex : List (Str × Str)) (file_hash : Str) : Option Str :=
  (backupIndex.find? fun e => e.1 == file_hash).map (·.2)

/-- `Path(p).name`: the component after the last slash. -/
def baseName (p : Str) : Str := (p.reverse.takeWhile fun c => c != '/').reverse

/-- The plain-download result of `_rpc_download_media` (no backup substitution):
the freshly downloaded bytes under the remote file's name. -/
def downloadedResult (env : DownloadEnv) (calls : List UpstreamCall) : DownloadResult :=
  {path := some (env.channel_id, env.remoteName), savedBytes := some env.fileBytes,
   upstream := calls}

/-- `_rpc_download_media` from tg_daemon.py.  The message is fetched, then the
media is FULLY downloaded from upstream; only afterwards, for a file whose
advertised size exceeds 64 KiB, is the downloaded file hashed and looked up in
the backup index, and on a hit the local backup copy replaces the download. -/
def rpc_download_media (env : DownloadEnv) (backup_path : Option Str)
    (use_hash_matching : Bool) (legacyFind : Option Str) : DownloadResult :=
  let calls0 := [UpstreamCall.getMessages env.message_id]
  if !env.messageExists then
    {path := none, error := some "Message not found".data, upstream := calls0}
  else if !env.hasMedia then
    {path := none, error := some "No media in message".data, upstream := calls0}
  else
    -- legacy filename-based matching, only when hash matching is disabled
    match backup_path, use_hash_matching, legacyFind with
    | some _, false, some bf =>
      {path := some (env.channel_id, baseName bf), from_backup := true,
       savedBytes := (env.disk.find? fun e => e.1 == bf).map (·.2), upstream := calls0}
    | _, _, _ =>
      let calls := calls0 ++ [UpstreamCall.downloadMedia env.fileBytes.length]
      if !env.downloadOk then
        {path := none, error := some "Download returned None".data, upstream := calls}
      else if backup_path.isSome && use_hash_matching then
        match env.mediaSize with
        | some s =>
          if s > HASH_SIZE_THRESHOLD then
            match compute_file_hash env.md5hex env.fileBytes with
            | some file_hash =>
              match find_backup_by_hash env.backupIndex file_hash with
              | some backup_match =>
                match env.disk.find? fun e => e.1 == backup_match with
                | some entry =>
                  {path := some (env.channel_id, baseName backup_match), from_backup := true,
                   savedBytes := some entry.2, upstream := calls}
                | none => downloadedResult env calls
              | none => downloadedResult env calls
            | none => downloadedResult env calls
          else downloadedResult env calls
        | none => downloadedResult env calls
      else downloadedResult env calls

/-! ## sync_messages.py: the channel loop and FloodWait skipping -/

/-- Outcome of fetching one channel's new messages through the daemon client
(`TGFloodWaitError` is the surfaced `flood_wait` response). -/
inductive FetchOutcome where
  | ok (messages : List Nat)
  | floodWait (seconds : Nat)
  | err (msg : Str)
deriving DecidableEq

/-- What `sync_messages_via_daemon` does with one channel. -/
inductive ChannelSync where
  | synced (inserted : Nat)
  | skippedFloodWait (seconds : Nat)
  | skippedError (msg : Str)
deriving DecidableEq

/-- Per-channel body of `sync_messages_via_daemon`: a `TGFloodWaitError` makes
the loop `continue` — nothing is inserted for that channel and it is not
retried within the run. -/
def syncChannelOnce (fetch : Nat → FetchOutcome) (channel_id : Nat) : ChannelSync :=
  match fetch channel_id with
  | .ok msgs => .synced msgs.length
  | .floodWait s => .skippedFloodWait s
  | .err m => .skippedError m

/-- The channel loop of `sync_messages_via_daemon`: every active channel is
attempted exactly once, in order, whatever happened on earlier channels. -/
def sync_messages_via_daemon (fetch : Nat → FetchOutcome) (channels : List Nat) :
    List (Nat × ChannelSync) :=
  channels.map fun c => (c, syncChannelOnce fetch c)

/-! ## database.py: `_group_album_messages` (album regrouping) -/

/-- The fields of a raw feed-query row used by `_group_album_messages`. -/
structure QMsg where
  channel_id : Option Int := none
  id : Nat
  grouped_id : Option Int := none
  date : Option Int := none
  message : Option Str := none
  entities : Option Str := none
  media_path : Option Str := none
  media_type : Option Str := none
  video_thumbnail_path : Option Str := none
deriving DecidableEq

/-- The grouping key `(channel_id, grouped_id)`, guarded by Python truthiness
(`if gid and ch_id`): `none` when either is missing or zero. -/
def qKey (m : QMsg) : Option (Int × Int) :=
  match m.channel_id, m.grouped_id with
  | some c, some g => if g ≠ 0 ∧ c ≠ 0 then some (c, g) else none
  | _, _ => none

/-- `grouped[key].append(msg)` on an insertion-ordered dict of lists. -/
def addToGroups (k : Int × Int) (m : QMsg) :
    List ((Int × Int) × List QMsg) → List ((Int × Int) × List QMsg)
  | [] => [(k, [m])]
  | (k', ms) :: rest =>
    if k' = k then (k', ms ++ [m]) :: rest else (k', ms) :: addToGroups k m rest

def partitionStep (acc : List ((Int × Int) × List QMsg) × List QMsg) (m : QMsg) :
    List ((Int × Int) × List QMsg) × List QMsg :=
  match qKey m with
  | some k => (addToGroups k m acc.1, acc.2)
  | none => (acc.1, acc.2 ++ [m])

/-- The first loop of `_group_album_messages`: split the raw rows into the
keyed groups and the ungrouped remainder. -/
def partitionMsgs (raw : List QMsg) : List ((Int × Int) × List QMsg) × List QMsg :=
  raw.foldl partitionStep ([], [])

/-- One `media_items` entry. -/
structure MediaItem where
  path : Option Str
  media_type : Option Str
  message_id : Nat
  video_thumbnail_path : Option Str
deriving DecidableEq

/-- `m.get("media_path") or m.get("media_type")` (Python truthiness). -/
def mediaTruthy (m : QMsg) : Bool :=
  (match m.media_path with | some p => !p.isEmpty | none => false) ||
  (match m.media_type with | some t => !t.isEmpty | none => false)

def mediaItemOf (m : QMsg) : MediaItem :=
  ⟨m.media_path, m.media_type, m.id, m.video_thumbnail_path⟩

/-- An output entry of `_group_album_messages`. -/
structure Album where
  base : QMsg
  media_items : List MediaItem
  is_album : Bool
  album_message_ids : List Nat
deriving DecidableEq

/-- `group_msgs.sort(key=lambda m: m.get("id") or 0)`. -/
def sortById (ms : List QMsg) : List QMsg :=
  List.insertionSort (fun a b => a.id ≤ b.id) ms

/-- Python truthiness of `m.get("message")`. -/
def msgTruthy (m : QMsg) : Bool :=
  match m.message with | some s => !s.isEmpty | none => false

/-- Consolidation of one keyed group: base is the lowest-id member, text comes
from the first member with non-empty text, `media_items` from every member with
a media path or type, `album_message_ids` lists all members. -/
def albumOfGroup (ms : List QMsg) : Album :=
  let sorted := sortById ms
  let base0 := sorted.headD {id := 0}
  let base := match sorted.find? msgTruthy with
    | some m => {base0 with message := m.message, entities := m.entities}
    | none => base0
  {base := base,
   media_items := (sorted.filter mediaTruthy).map mediaItemOf,
   is_album := true,
   album_message_ids := sorted.map (·.id)}

/-- Consolidation of an ungrouped message into its own trivial album. -/
def singletonAlbum (m : QMsg) : Album :=
  {base := m,
   media_items := if mediaTruthy m then [mediaItemOf m] else [],
   is_album := false,
   album_message_ids := [m.id]}

/-- Sort key `m.get("date") or 0`. -/
def dateKey (a : Album) : Int := a.base.date.getD 0

def sortByDateAsc (xs : List Album) : List Album :=
  List.insertionSort (fun a b => dateKey a ≤ dateKey b) xs

def sortByDateDesc (xs : List Album) : List Album :=
  List.insertionSort (fun a b => dateKey b ≤ dateKey a) xs

/-- `_group_album_messages` from database.py. -/
def group_album_messages (raw : List QMsg) (limit : Nat) (reverse oldest_first : Bool) :
    List Album :=
  let p := partitionMsgs raw
  let combined := p.1.map (fun kg => albumOfGroup kg.2) ++ p.2.map singletonAlbum
  if oldest_first then (sortByDateAsc combined).take limit
  else
    let result := (sortByDateDesc combined).take limit
    if !reverse then sortByDateAsc result else result

/-- The `(channel_id, id)` pair of a raw row. -/
def pairOf (m : QMsg) : Option Int × Nat := (m.channel_id, m.id)

/-- The `(channel_id, id)` pairs covered by one output album. -/
def albumPairs (a : Album) : List (Option Int × Nat) :=
  a.album_message_ids.map fun i => (a.base.channel_id, i)

/-- The number of albums the regrouping produces before the limit is applied. -/
def albumCount (raw : List QMsg) : Nat :=
  (partitionMsgs raw).1.length + (partitionMsgs raw).2.length

/-! # Claim theorems -/

/-- C7: keyword strings that normalize to the same canonical form (split on
commas, trim, lowercase, drop empties, deduplicate, sort, rejoin) receive the
same content hash; in particular `"b, a, A ,b"` and `"a,b"` hash identically. -/
theorem c7_content_hash_canonical (s1 s2 : Str)
    (h : normalize_keywords s1 = normalize_keywords s2) :
    compute_hash s1 = compute_hash s2 := by
  simp only [compute_hash, sha256HexOfStr, h]

theorem c7_content_hash_canonical_witness :
    normalize_keywords "b, a, A ,b".data = normalize_keywords "a,b".data ∧
      compute_hash "b, a, A ,b".data = compute_hash "a,b".data :=
  ⟨by decide, c7_content_hash_canonical "b, a, A ,b".data "a,b".data (by decide)⟩

/-- C4: `register_content_hash` / `register_media_hash` return the existing
row's coordinates and insert nothing when `(hash, group_id)` is already
present, insert a fresh first-writer row and return nothing otherwise; the
same hash under two distinct `group_id`s yields two independent rows with
neither call reporting a duplicate. -/
theorem c4_register_first_writer (rows : List HashRow) (hsh : Str) (ch : Int) (mid : Nat)
    (mdate g now : Int) :
    (∀ ex, findHashRow rows hsh g = some ex →
        register_content_hash rows hsh ch mid mdate g now
            = (some (ex.channel_id, ex.message_id), rows)
          ∧ register_media_hash rows hsh ch mid mdate g now
            = (some (ex.channel_id, ex.message_id), rows))
    ∧ (findHashRow rows hsh g = none →
        register_content_hash rows hsh ch mid mdate g now
            = (none, rows ++ [⟨hsh, g, ch, mid, mdate, now⟩])
          ∧ register_media_hash rows hsh ch mid mdate g now
            = (none, rows ++ [⟨hsh, g, ch, mid, mdate, now⟩]))
    ∧ (∀ g2 ch2 mid2 mdate2 now2, g2 ≠ g →
        findHashRow rows hsh g = none → findHashRow rows hsh g2 = none →
        register_content_hash (register_content_hash rows hsh ch mid mdate g now).2
            hsh ch2 mid2 mdate2 g2 now2
          = (none, rows ++ [⟨hsh, g, ch, mid, mdate, now⟩,
                            ⟨hsh, g2, ch2, mid2, mdate2, now2⟩])) := by
  refine ⟨fun ex hex => ?_, fun hnone => ?_, fun g2 ch2 mid2 mdate2 now2 hne hnone hnone2 => ?_⟩
  · simp [register_content_hash, register_media_hash, registerHashRow, hex]
  · simp [register_content_hash, register_media_hash, registerHashRow, hnone]
  · have hgg : g ≠ g2 := fun h => hne h.symm
    have h2 : findHashRow (rows ++ [⟨hsh, g, ch, mid, mdate, now⟩]) hsh g2 = none := by
      simp only [findHashRow, List.find?_append]
      simp only [findHashRow] at hnone2
      simp [hnone2, hgg]
    simp [register_content_hash, registerHashRow, hnone, h2]

theorem c4_register_first_writer_witness :
    register_content_hash
        (register_content_hash [] "h0".data 5 7 100 1 50).2 "h0".data 6 8 101 2 51
      = (none, [⟨"h0".data, 1, 5, 7, 100, 50⟩, ⟨"h0".data, 2, 6, 8, 101, 51⟩]) := by
  have h := (c4_register_first_writer [] "h0".data 5 7 100 1 50).2.2 2 6 8 101 51
    (by decide) (by decide) (by decide)
  simpa using h

/-- C9: `mark_messages_read` sets `read = 1` and `read_at = now` exactly on the
listed rows whose `read` is currently 0; rows already read (or not listed) are
left entirely unchanged, and a subsequent call does not overwrite `read_at` or
any other column. -/
theorem c9_mark_messages_read (message_ids : List Nat) (now now2 : Int)
    (table : List Row) (r : Row) :
    mark_messages_read message_ids now table = table.map (markMessagesReadRow message_ids now)
  ∧ (r.id ∈ message_ids → r.read = some 0 →
      markMessagesReadRow message_ids now r = {r with read := some 1, read_at := some now})
  ∧ (r.read ≠ some 0 → markMessagesReadRow message_ids now r = r)
  ∧ (r.id ∉ message_ids → markMessagesReadRow message_ids now r = r)
  ∧ mark_messages_read message_ids now2 (mark_messages_read message_ids now table)
      = mark_messages_read message_ids now table := by
  refine ⟨rfl, fun hmem hread => ?_, fun hread => ?_, fun hmem => ?_, ?_⟩
  · simp [markMessagesReadRow, hmem, hread]
  · simp [markMessagesReadRow, hread]
  · simp [markMessagesReadRow, hmem]
  · simp only [mark_messages_read, List.map_map]
    refine List.map_congr_left fun a _ => ?_
    by_cases h : a.id ∈ message_ids ∧ a.read = some 0
    · simp [Function.comp, markMessagesReadRow, h]
    · simp [Function.comp, markMessagesReadRow, h]

theorem c9_mark_messages_read_witness :
    markMessagesReadRow [1, 2] 10 {id := 1}
        = {id := 1, read := some 1, read_at := some 10}
  ∧ markMessagesReadRow [1, 2] 20 {id := 2, read := some 1, read_at := some 7}
      = {id := 2, read := some 1, read_at := some 7}
  ∧ mark_messages_read [1, 2] 20 (mark_messages_read [1, 2] 10
        [{id := 1}, {id := 2, read := some 1, read_at := some 7}])
      = mark_messages_read [1, 2] 10
          [{id := 1}, {id := 2, read := some 1, read_at := some 7}] :=
  ⟨(c9_mark_messages_read [1, 2] 10 10 [] {id := 1}).2.1 (by decide) (by decide),
   (c9_mark_messages_read [1, 2] 20 20 [] {id := 2, read := some 1, read_at := some 7}).2.2.1
     (by decide),
   (c9_mark_messages_read [1, 2] 10 20
     [{id := 1}, {id := 2, read := some 1, read_at := some 7}] {id := 1}).2.2.2.2⟩

/-- C10: `mark_messages_read_up_to` sets `read = 1` exactly on rows with
`id ≤ max_id` and `read = 0`, never writes `read_at` and changes no other
column; consequently retention's `COALESCE(read_at, created_at)` age basis is
unchanged and, for rows whose `read_at` is NULL, falls back to `created_at`. -/
theorem c10_mark_read_up_to (max_id : Nat) (table : List Row) (r : Row) (cutoff : Int) :
    mark_messages_read_up_to max_id table = table.map (markReadUpToRow max_id)
  ∧ (r.id ≤ max_id → r.read = some 0 →
      markReadUpToRow max_id r = {r with read := some 1})
  ∧ (¬ (r.id ≤ max_id ∧ r.read = some 0) → markReadUpToRow max_id r = r)
  ∧ (markReadUpToRow max_id r).read_at = r.read_at
  ∧ coalesceLt (markReadUpToRow max_id r) cutoff = coalesceLt r cutoff
  ∧ (r.read_at = none →
      sqlCoalesce (markReadUpToRow max_id r).read_at (markReadUpToRow max_id r).created_at
        = r.created_at) := by
  have hra : (markReadUpToRow max_id r).read_at = r.read_at := by
    by_cases h : r.id ≤ max_id ∧ r.read = some 0 <;> simp [markReadUpToRow, h]
  have hca : (markReadUpToRow max_id r).created_at = r.created_at := by
    by_cases h : r.id ≤ max_id ∧ r.read = some 0 <;> simp [markReadUpToRow, h]
  refine ⟨rfl, fun h1 h2 => ?_, fun h => ?_, hra, ?_, fun hnone => ?_⟩
  · simp [markReadUpToRow, h1, h2]
  · simp [markReadUpToRow, h]
  · simp [coalesceLt, hra, hca]
  · simp [sqlCoalesce, hra, hca, hnone]

theorem c10_mark_read_up_to_witness :
    markReadUpToRow 5 {id := 3, created_at := some 40}
        = {id := 3, created_at := some 40, read := some 1}
  ∧ markReadUpToRow 5 {id := 9, created_at := some 40} = {id := 9, created_at := some 40}
  ∧ (markReadUpToRow 5 {id := 3, created_at := some 40}).read_at = none
  ∧ sqlCoalesce (markReadUpToRow 5 {id := 3, created_at := some 40}).read_at
      (markReadUpToRow 5 {id := 3, created_at := some 40}).created_at = some 40 := by
  have h3 := c10_mark_read_up_to 5 [] {id := 3, created_at := some 40} 0
  have h9 := c10_mark_read_up_to 5 [] {id := 9, created_at := some 40} 0
  exact ⟨h3.2.1 (by decide) (by decide), h9.2.2.1 (by decide),
    h3.2.2.2.1.trans (by decide), (h3.2.2.2.2.2 (by decide)).trans (by decide)⟩

/-- C8: a handler raising the upstream rate-limit error makes the daemon reply
with `error = "flood_wait"` plus `flood_wait_seconds`, invoking the handler
exactly once (no retry); the forward-sync loop turns that condition into a
skip of the affected channel while still attempting every channel exactly
once, in order. -/
theorem c8_floodwait_skip (req_id : Option Nat) (method : Str) (s : Nat)
    (hm : method ∈ rpcMethods) (fetch : Nat → FetchOutcome) (channels : List Nat) (c : Nat)
    (hc : fetch c = .floodWait s) :
    dispatch_rpc req_id method (.floodWait s)
        = ({id := req_id, result := false, error := some "flood_wait".data,
            flood_wait_seconds := some s}, 1)
  ∧ syncChannelOnce fetch c = .skippedFloodWait s
  ∧ (sync_messages_via_daemon fetch channels).map Prod.fst = channels
  ∧ ∀ ch ∈ channels, (ch, syncChannelOnce fetch ch) ∈ sync_messages_via_daemon fetch channels := by
  have hcontains : rpcMethods.contains method = true := by
    simpa [List.contains] using List.elem_iff.mpr hm
  refine ⟨by simp [dispatch_rpc, hcontains, hm], by simp [syncChannelOnce, hc], ?_, ?_⟩
  · simp only [sync_messages_via_daemon, List.map_map]
    have hfst : (Prod.fst ∘ fun c => (c, syncChannelOnce fetch c)) = id := rfl
    rw [hfst, List.map_id]
  · intro ch hch
    exact List.mem_map_of_mem _ hch

/-- C1 (amended): for an album of two present files, the media hash is the
SHA-256 of the two per-file digests concatenated in the lexicographic order of
their MEDIA PATHS — regardless of the order of the digests themselves. -/
theorem c1_media_hash_path_order (fs : FileSys) (album_msgs : List MediaMsg)
    (p1 p2 h1 h2 : Str) (hpaths : albumMediaPaths album_msgs = [p1, p2])
    (hf1 : sha256_file fs p1 = some h1) (hf2 : sha256_file fs p2 = some h2) :
    albumMediaHash fs album_msgs = some (sha256HexOfStr (h1 ++ h2)) := by
  unfold albumMediaHash
  rw [hpaths]
  simp [hashAlbumFiles, hf1, hf2, joinStr]

/-- The two-photo test album: file `a.jpg` holds byte `0x61`, file `b.jpg`
holds byte `0x62`. -/
def c1pathA : Str := "a.jpg".data

def c1pathB : Str := "b.jpg".data

def c1fs : FileSys := [(c1pathA, [97]), (c1pathB, [98])]

def c1msgs : List MediaMsg :=
  [{id := 10, media_path := some c1pathA, grouped_id := some 7},
   {id := 11, media_path := some c1pathB, grouped_id := some 7}]

theorem c1fs_read_a : sha256_file c1fs c1pathA = some (sha256Hex [97]) := by
  have h : fsRead c1fs c1pathA = some [97] := by decide
  simp [sha256_file, h]

theorem c1fs_read_b : sha256_file c1fs c1pathB = some (sha256Hex [98]) := by
  have h : fsRead c1fs c1pathB = some [98] := by decide
  simp [sha256_file, h]

theorem c1msgs_paths : albumMediaPaths c1msgs = [c1pathA, c1pathB] := by decide

theorem c1_media_hash_path_order_witness :
    albumMediaPaths c1msgs = [c1pathA, c1pathB]
  ∧ sha256_file c1fs c1pathA = some (sha256Hex [97])
  ∧ sha256_file c1fs c1pathB = some (sha256Hex [98])
  ∧ albumMediaHash c1fs c1msgs
      = some (sha256HexOfStr (sha256Hex [97] ++ sha256Hex [98])) :=
  ⟨c1msgs_paths, c1fs_read_a, c1fs_read_b,
   c1_media_hash_path_order c1fs c1msgs c1pathA c1pathB
     (sha256Hex [97]) (sha256Hex [98]) c1msgs_paths c1fs_read_a c1fs_read_b⟩

/-- The album hash the code computes on the test album, evaluated without
touching the compression function: digest of `a.jpg` first (path order). -/
theorem c1_album_hash_eval :
    albumMediaHash c1fs c1msgs = some (sha256HexOfStr (sha256Hex [97] ++ sha256Hex [98])) := by
  unfold albumMediaHash
  rw [c1msgs_paths]
  simp only [hashAlbumFiles, c1fs_read_a, c1fs_read_b]
  simp [joinStr]

/-- C1 counterexample: in the test album the per-file digests satisfy
`h(b.jpg) < h(a.jpg)` lexicographically, so the spec's digest-sorted rule
predicts `SHA256(h(b.jpg) ++ h(a.jpg))`; the code concatenates in path order
and produces a different hash. -/
theorem c1_media_hash_counterexample :
    strLt (sha256Hex [98]) (sha256Hex [97]) = true
  ∧ albumMediaHash c1fs c1msgs
      ≠ some (sha256HexOfStr (sha256Hex [98] ++ sha256Hex [97])) := by
  refine ⟨by decide, ?_⟩
  rw [c1_album_hash_eval]
  intro h
  have h2 : sha256HexOfStr (sha256Hex [97] ++ sha256Hex [98])
      = sha256HexOfStr (sha256Hex [98] ++ sha256Hex [97]) := Option.some_inj.mp h
  exact absurd h2 (by decide)

/-- On a backup-index hit for a large file, `_rpc_download_media` still asks
upstream for the full file and only then substitutes the backup copy. -/
theorem download_media_backup_hit (env : DownloadEnv) (backup_path : Str) (s : Nat)
    (file_hash backup_file : Str) (contents : List Nat)
    (hmsg : env.messageExists = true) (hmedia : env.hasMedia = true)
    (hok : env.downloadOk = true) (hsize : env.mediaSize = some s)
    (hbig : HASH_SIZE_THRESHOLD < s) (hlen : HASH_SIZE_THRESHOLD < env.fileBytes.length)
    (hhash : env.md5hex (env.fileBytes.take HASH_SIZE_THRESHOLD) = file_hash)
    (hidx : find_backup_by_hash env.backupIndex file_hash = some backup_file)
    (hdisk : env.disk.find? (fun e => e.1 == backup_file) = some (backup_file, contents)) :
    rpc_download_media env (some backup_path) true none
      = {path := some (env.channel_id, baseName backup_file), from_backup := true,
         savedBytes := some contents,
         upstream := [UpstreamCall.getMessages env.message_id,
                      UpstreamCall.downloadMedia env.fileBytes.length]} := by
  have hch : compute_file_hash env.md5hex env.fileBytes = some file_hash := by
    unfold compute_file_hash
    rw [if_neg (by omega), hhash]
  unfold rpc_download_media
  rw [hmsg, hmedia]
  simp only [Bool.not_true, Bool.false_eq_true, if_false]
  rw [hok, hsize]
  simp only [Bool.not_true, Bool.false_eq_true, if_false, Option.isSome_some,
    Bool.true_and, Bool.and_self, if_true, hch, hidx, hdisk]
  rw [if_pos hbig]
  simp

/-- C2 (amended): `get_media_hash` is not a daemon method, and the
backup-reuse path of `_rpc_download_media` downloads the FULL file from
upstream first; only then is the downloaded file's first-64-KiB hash matched
against the backup index, and on a hit the returned path holds the backup
file's bytes. -/
theorem c2_backup_substitution (env : DownloadEnv) (backup_path : Str) (s : Nat)
    (file_hash backup_file : Str) (contents : List Nat)
    (hmsg : env.messageExists = true) (hmedia : env.hasMedia = true)
    (hok : env.downloadOk = true) (hsize : env.mediaSize = some s)
    (hbig : HASH_SIZE_THRESHOLD < s) (hlen : HASH_SIZE_THRESHOLD < env.fileBytes.length)
    (hhash : env.md5hex (env.fileBytes.take HASH_SIZE_THRESHOLD) = file_hash)
    (hidx : find_backup_by_hash env.backupIndex file_hash = some backup_file)
    (hdisk : env.disk.find? (fun e => e.1 == backup_file) = some (backup_file, contents)) :
    rpcMethods.contains "get_media_hash".data = false
  ∧ rpc_download_media env (some backup_path) true none
      = {path := some (env.channel_id, baseName backup_file), from_backup := true,
         savedBytes := some contents,
         upstream := [UpstreamCall.getMessages env.message_id,
                      UpstreamCall.downloadMedia env.fileBytes.length]} :=
  ⟨by decide, download_media_backup_hit env backup_path s file_hash backup_file contents
    hmsg hmedia hok hsize hbig hlen hhash hidx hdisk⟩

/-- The concrete download environment: a 70000-byte remote file whose
first-64-KiB hash is indexed in the channel backup table. -/
def c2env : DownloadEnv :=
  {channel_id := 5, message_id := 9, mediaSize := some 70000,
   fileBytes := List.replicate 70000 1, remoteName := "file.bin".data,
   md5hex := fun _ => "d41d".data,
   backupIndex := [("d41d".data, "backup/video_files/file.bin".data)],
   disk := [("backup/video_files/file.bin".data, [1, 2, 3])]}

theorem c2env_bytes : c2env.fileBytes = List.replicate 70000 1 := rfl

theorem c2_backup_substitution_witness :
    rpc_download_media c2env (some "backup".data) true none
      = {path := some (5, "file.bin".data), from_backup := true,
         savedBytes := some [1, 2, 3],
         upstream := [UpstreamCall.getMessages 9, UpstreamCall.downloadMedia 70000]} := by
  have h := (c2_backup_substitution c2env "backup".data 70000 "d41d".data
    "backup/video_files/file.bin".data [1, 2, 3] rfl rfl rfl rfl (by decide)
    (by rw [c2env_bytes, List.length_replicate]; decide) rfl (by decide) (by decide)).2
  rw [h, c2env_bytes, List.length_replicate]
  decide

/-- C2 counterexample: a `get_media_hash` request is answered
"Unknown method", and on a backup hit the upstream has already been asked for
the file's full 70000 bytes — not only the first 64 KiB. -/
theorem c2_download_media_counterexample :
    (dispatch_rpc (some 1) "get_media_hash".data .ok).1.error
        = some "Unknown method: get_media_hash".data
  ∧ HASH_SIZE_THRESHOLD < 70000
  ∧ (rpc_download_media c2env (some "backup".data) true none).upstream
      = [UpstreamCall.getMessages 9, UpstreamCall.downloadMedia 70000] := by
  refine ⟨by decide, by decide, ?_⟩
  have h := download_media_backup_hit c2env "backup".data 70000 "d41d".data
    "backup/video_files/file.bin".data [1, 2, 3] rfl rfl rfl rfl (by decide)
    (by rw [c2env_bytes, List.length_replicate]; decide) rfl (by decide) (by decide)
  rw [h, c2env_bytes, List.length_replicate]
  decide

/-- Phase 1 of retention never changes a row's `id`. -/
theorem cleanupPhase1Row_id (c : Int) (r : Row) : (cleanupPhase1Row c r).id = r.id := by
  by_cases h : phase1Cond c r = true <;> simp [cleanupPhase1Row, h]

/-- Phase 1 of retention leaves rows with `bookmarked = 1` untouched. -/
theorem cleanupPhase1Row_of_bookmarked (c : Int) (r : Row) (hb : r.bookmarked = some 1) :
    cleanupPhase1Row c r = r := by
  simp [cleanupPhase1Row, phase1Cond, notBookmarked, hb]

/-- C3 (amended): retention cleanup never deletes a bookmarked row (such a row
is not even modified) and never deletes the highest-id row; rows with
`anchored = 1` have no such protection (see the counterexample). -/
theorem c3_retention_protects (media_cutoff message_cutoff : Int) (table : List Row)
    (r : Row) (hr : r ∈ table) :
    (r.bookmarked = some 1 →
      r ∈ cleanup_old_messages_channel media_cutoff message_cutoff table)
  ∧ ((∀ r2 ∈ table, r2.id ≤ r.id) →
      ∃ r', r' ∈ cleanup_old_messages_channel media_cutoff message_cutoff table
        ∧ r'.id = r.id) := by
  constructor
  · intro hb
    have hfix : cleanupPhase1Row media_cutoff r = r :=
      cleanupPhase1Row_of_bookmarked media_cutoff r hb
    have hmem1 : r ∈ table.map (cleanupPhase1Row media_cutoff) := by
      have := List.mem_map_of_mem (cleanupPhase1Row media_cutoff) hr
      rwa [hfix] at this
    unfold cleanup_old_messages_channel
    cases hmax : phase2MaxId (table.map (cleanupPhase1Row media_cutoff)) with
    | none => simpa [hmax] using hmem1
    | some m =>
      simp only [hmax]
      refine List.mem_filter.mpr ⟨hmem1, ?_⟩
      simp [phase2Cond, notBookmarked, hb]
  · intro hmaxid
    have hmem1 : cleanupPhase1Row media_cutoff r ∈ table.map (cleanupPhase1Row media_cutoff) :=
      List.mem_map_of_mem (cleanupPhase1Row media_cutoff) hr
    have hids : (table.map (cleanupPhase1Row media_cutoff)).map (·.id) = table.map (·.id) := by
      rw [List.map_map]
      exact List.map_congr_left fun a _ => cleanupPhase1Row_id media_cutoff a
    unfold cleanup_old_messages_channel
    cases hmax : phase2MaxId (table.map (cleanupPhase1Row media_cutoff)) with
    | none => exact ⟨cleanupPhase1Row media_cutoff r, by simp [hmax, hmem1],
        cleanupPhase1Row_id media_cutoff r⟩
    | some m =>
      have hm : (table.map (·.id)).max? = some m ∧ m ≠ 0 := by
        simp only [phase2MaxId, hids] at hmax
        cases h : (table.map (·.id)).max? with
        | none => simp [h] at hmax
        | some m' =>
          simp only [h] at hmax
          by_cases h0 : m' = 0
          · simp [h0] at hmax
          · simp only [if_neg h0, Option.some_inj] at hmax
            subst hmax
            exact ⟨rfl, h0⟩
      have hmmem : m ∈ table.map (·.id) :=
        List.max?_mem (fun a b => max_choice a b) hm.1
      have hmub : ∀ b ∈ table.map (·.id), b ≤ m :=
        (List.max?_le_iff (fun a b c => max_le_iff) hm.1).mp (le_refl m)
      have hmler : m ≤ r.id := by
        obtain ⟨r2, hr2, hr2id⟩ := List.mem_map.mp hmmem
        exact hr2id ▸ hmaxid r2 hr2
      have hrlem : r.id ≤ m := hmub r.id (List.mem_map_of_mem _ hr)
      have hmeq : m = r.id := le_antisymm hmler hrlem
      refine ⟨cleanupPhase1Row media_cutoff r, ?_, cleanupPhase1Row_id media_cutoff r⟩
      simp only [hmax]
      refine List.mem_filter.mpr ⟨hmem1, ?_⟩
      simp [phase2Cond, cleanupPhase1Row_id, hmeq]

theorem c3_retention_protects_witness :
    ({id := 1, bookmarked := some 1, read := some 1, read_at := some 0,
        created_at := some 0} : Row)
        ∈ cleanup_old_messages_channel 100 100
            [{id := 1, bookmarked := some 1, read := some 1, read_at := some 0,
              created_at := some 0}, {id := 2}]
  ∧ ∃ r', r' ∈ cleanup_old_messages_channel 100 100
        [{id := 1}, {id := 2, read := some 1, read_at := some 0, created_at := some 0}]
      ∧ r'.id = 2 :=
  ⟨(c3_retention_protects 100 100
      [{id := 1, bookmarked := some 1, read := some 1, read_at := some 0,
        created_at := some 0}, {id := 2}]
      {id := 1, bookmarked := some 1, read := some 1, read_at := some 0, created_at := some 0}
      (by decide)).1 (by decide),
   (c3_retention_protects 100 100
      [{id := 1}, {id := 2, read := some 1, read_at := some 0, created_at := some 0}]
      {id := 2, read := some 1, read_at := some 0, created_at := some 0}
      (by decide)).2 (by decide)⟩

/-- C3 counterexample: an anchored (non-bookmarked) read row older than the
cutoff, and not the latest row, IS deleted by retention cleanup — the deletion
conditions never test `anchored`. -/
theorem c3_retention_counterexample :
    ({id := 1, created_at := some 0, read := some 1, read_at := some 0,
        anchored := some 1} : Row).anchored = some 1
  ∧ ({id := 1, created_at := some 0, read := some 1, read_at := some 0,
        anchored := some 1} : Row)
      ∈ ([{id := 1, created_at := some 0, read := some 1, read_at := some 0,
            anchored := some 1}, {id := 2}] : List Row)
  ∧ ({id := 1, created_at := some 0, read := some 1, read_at := some 0,
        anchored := some 1} : Row)
      ∉ cleanup_old_messages_channel 100 100
          [{id := 1, created_at := some 0, read := some 1, read_at := some 0,
            anchored := some 1}, {id := 2}] := by decide

/-- C6: in the text-hash pass, when the AI summary's token set contains some
tag-exclusion group's (non-empty) token set, the message is marked `read = 1`
with `read_at = now` (only if it was unread), its summary and content hash are
stored with `content_hash_pending = 0`, and nothing is inserted into the
content-hash registry. -/
theorem c6_tag_exclusion_auto_mark (exclusion_groups : List Str) (group_id channel_id : Int)
    (now : Int) (msg : PendingMsg) (ai_summary : Str) (table : List Row)
    (content_hashes : List HashRow)
    (hmatch : ∃ exc ∈ exclusion_groups, tagTokens exc ≠ []
      ∧ ∀ t ∈ tagTokens exc, t ∈ tagTokens ai_summary) :
    (textHashStep exclusion_groups group_id channel_id now msg ai_summary table
        content_hashes).2 = content_hashes
  ∧ (textHashStep exclusion_groups group_id channel_id now msg ai_summary table
        content_hashes).1
      = table.map fun r =>
          if r.id = msg.id ∧ r.read = some 0 then
            {r with read := some 1, read_at := some now,
                    content_hash := some (compute_hash ai_summary),
                    ai_summary := some ai_summary, content_hash_pending := some 0}
          else if r.id = msg.id then
            {r with content_hash := some (compute_hash ai_summary),
                    ai_summary := some ai_summary, content_hash_pending := some 0}
          else r := by
  obtain ⟨exc, hexc, hne, hsub⟩ := hmatch
  obtain ⟨t0, ht0⟩ := List.exists_mem_of_ne_nil _ hne
  have hsumne : ai_summary ≠ [] := by
    intro h
    have := hsub t0 ht0
    rw [h] at this
    simp [tagTokens, splitComma, pyStrip] at this
  have hcheck : check_tag_exclusions ai_summary exclusion_groups = true := by
    simp only [check_tag_exclusions, if_neg hsumne, List.any_eq_true]
    refine ⟨exc, hexc, ?_⟩
    have hie : (tagTokens exc).isEmpty = false := by
      cases htk : tagTokens exc with
      | nil => exact absurd htk hne
      | cons a l => rfl
    rw [hie]
    simp only [Bool.not_false, Bool.true_and, List.all_eq_true]
    intro t ht
    have := List.elem_iff.mpr (hsub t ht)
    simpa [List.contains] using this
  have hnonempty : exclusion_groups.isEmpty = false := by
    cases exclusion_groups with
    | nil => cases hexc
    | cons a l => rfl
  have hbranch : (!exclusion_groups.isEmpty && check_tag_exclusions ai_summary
      exclusion_groups) = true := by
    rw [hnonempty, hcheck]; rfl
  constructor
  · simp [textHashStep, hbranch]
  · simp only [textHashStep, hbranch, if_pos]
    simp only [update_content_hash, autoExcludeRead, List.map_map]
    refine List.map_congr_left fun r _ => ?_
    by_cases h1 : r.id = msg.id ∧ r.read = some 0
    · simp [Function.comp, h1, h1.1]
    · by_cases h2 : r.id = msg.id
      · have hread : ¬ r.read = some 0 := fun hrr => h1 ⟨h2, hrr⟩
        simp [Function.comp, h1, h2, hread]
      · simp [Function.comp, h1, h2]

theorem c6_tag_exclusion_auto_mark_witness :
    (textHashStep ["ad, promo".data] 1 5 1000 {id := 1} "ad, deal, promo, sale".data
        [{id := 1}, {id := 2}] []).2 = []
  ∧ (textHashStep ["ad, promo".data] 1 5 1000 {id := 1} "ad, deal, promo, sale".data
        [{id := 1}, {id := 2}] []).1
      = [{id := 1, read := some 1, read_at := some 1000,
          content_hash := some (compute_hash "ad, deal, promo, sale".data),
          ai_summary := some "ad, deal, promo, sale".data,
          content_hash_pending := some 0}, {id := 2}] := by
  have h := c6_tag_exclusion_auto_mark ["ad, promo".data] 1 5 1000 {id := 1}
    "ad, deal, promo, sale".data [{id := 1}, {id := 2}] [] (by decide)
  exact ⟨h.1, h.2.trans (by decide)⟩

theorem c8_floodwait_skip_witness :
    dispatch_rpc (some 3) "iter_messages".data (.floodWait 42)
        = ({id := some 3, result := false, error := some "flood_wait".data,
            flood_wait_seconds := some 42}, 1)
  ∧ syncChannelOnce (fun _ => .floodWait 42) 1 = .skippedFloodWait 42
  ∧ (sync_messages_via_daemon (fun _ => .floodWait 42) [1, 2]).map Prod.fst = [1, 2] := by
  have h := c8_floodwait_skip (some 3) "iter_messages".data 42 (by decide)
    (fun _ => .floodWait 42) [1, 2] 1 rfl
  exact ⟨h.1, h.2.1, h.2.2.1⟩

/-! ### Album regrouping lemmas -/

/-- All messages held inside the keyed groups. -/
def flatG (gs : List ((Int × Int) × List QMsg)) : List QMsg := gs.flatMap (·.2)

theorem flatG_addToGroups (k : Int × Int) (m : QMsg)
    (gs : List ((Int × Int) × List QMsg)) :
    (flatG (addToGroups k m gs)).Perm (m :: flatG gs) := by
  induction gs with
  | nil => simp [flatG, addToGroups]
  | cons e rest ih =>
    obtain ⟨k', ms⟩ := e
    by_cases hk : k' = k
    · simp only [addToGroups, if_pos hk, flatG, List.flatMap_cons]
      rw [List.append_assoc, List.singleton_append]
      exact List.perm_middle
    · simp only [addToGroups, if_neg hk, flatG, List.flatMap_cons] at ih ⊢
      exact (ih.append_left ms).trans List.perm_middle

theorem addToGroups_keys (k : Int × Int) (m : QMsg)
    (gs : List ((Int × Int) × List QMsg)) (hm : qKey m = some k)
    (hinv : ∀ e ∈ gs, ∀ m' ∈ e.2, qKey m' = some e.1) :
    ∀ e ∈ addToGroups k m gs, ∀ m' ∈ e.2, qKey m' = some e.1 := by
  induction gs with
  | nil =>
    intro e he m' hm'
    simp only [addToGroups, List.mem_singleton] at he
    subst he
    simp only [List.mem_singleton] at hm'
    subst hm'
    exact hm
  | cons e0 rest ih =>
    obtain ⟨k', ms⟩ := e0
    by_cases hk : k' = k
    · simp only [addToGroups, if_pos hk]
      intro e he m' hm'
      rcases List.mem_cons.mp he with he | he
      · subst he
        rcases List.mem_append.mp hm' with h | h
        · exact hinv (k', ms) (List.mem_cons_self _ _) m' h
        · simp only [List.mem_singleton] at h
          subst h
          subst hk
          exact hm
      · exact hinv e (List.mem_cons_of_mem _ he) m' hm'
    · simp only [addToGroups, if_neg hk]
      intro e he m' hm'
      rcases List.mem_cons.mp he with he | he
      · subst he
        exact hinv _ (List.mem_cons_self _ _) m' hm'
      · exact ih (fun e' he' => hinv e' (List.mem_cons_of_mem _ he')) e he m' hm'

theorem addToGroups_ne_nil (k : Int × Int) (m : QMsg)
    (gs : List ((Int × Int) × List QMsg)) (hinv : ∀ e ∈ gs, e.2 ≠ []) :
    ∀ e ∈ addToGroups k m gs, e.2 ≠ [] := by
  induction gs with
  | nil =>
    intro e he
    simp only [addToGroups, List.mem_singleton] at he
    subst he
    simp
  | cons e0 rest ih =>
    obtain ⟨k', ms⟩ := e0
    by_cases hk : k' = k
    · simp only [addToGroups, if_pos hk]
      intro e he
      rcases List.mem_cons.mp he with he | he
      · subst he; simp
      · exact hinv e (List.mem_cons_of_mem _ he)
    · simp only [addToGroups, if_neg hk]
      intro e he
      rcases List.mem_cons.mp he with he | he
      · subst he
        exact hinv _ (List.mem_cons_self _ _)
      · exact ih (fun e' he' => hinv e' (List.mem_cons_of_mem _ he')) e he

theorem partition_foldl_perm (raw : List QMsg) :
    ∀ (gs0 : List ((Int × Int) × List QMsg)) (ung0 : List QMsg),
      (flatG (raw.foldl partitionStep (gs0, ung0)).1
          ++ (raw.foldl partitionStep (gs0, ung0)).2).Perm
        ((flatG gs0 ++ ung0) ++ raw) := by
  induction raw with
  | nil => intro gs0 ung0; simp
  | cons m raw' ih =>
    intro gs0 ung0
    cases hk : qKey m with
    | some k =>
      have hstep : partitionStep (gs0, ung0) m = (addToGroups k m gs0, ung0) := by
        simp [partitionStep, hk]
      rw [List.foldl_cons, hstep]
      refine (ih (addToGroups k m gs0) ung0).trans ?_
      have h1 : (flatG (addToGroups k m gs0) ++ ung0).Perm ((m :: flatG gs0) ++ ung0) :=
        (flatG_addToGroups k m gs0).append_right ung0
      refine ((h1.append_right raw').trans ?_)
      rw [List.cons_append, List.cons_append]
      exact (List.perm_middle).symm
    | none =>
      have hstep : partitionStep (gs0, ung0) m = (gs0, ung0 ++ [m]) := by
        simp [partitionStep, hk]
      rw [List.foldl_cons, hstep]
      refine (ih gs0 (ung0 ++ [m])).trans ?_
      rw [← List.append_assoc, List.append_assoc (flatG gs0 ++ ung0), List.singleton_append]

theorem partition_foldl_keys (raw : List QMsg) :
    ∀ (gs0 : List ((Int × Int) × List QMsg)) (ung0 : List QMsg),
      (∀ e ∈ gs0, ∀ m' ∈ e.2, qKey m' = some e.1) →
      ∀ e ∈ (raw.foldl partitionStep (gs0, ung0)).1, ∀ m' ∈ e.2, qKey m' = some e.1 := by
  induction raw with
  | nil => intro gs0 ung0 hinv; exact hinv
  | cons m raw' ih =>
    intro gs0 ung0 hinv
    cases hk : qKey m with
    | some k =>
      rw [List.foldl_cons, show partitionStep (gs0, ung0) m = (addToGroups k m gs0, ung0)
        from by simp [partitionStep, hk]]
      exact ih (addToGroups k m gs0) ung0 (addToGroups_keys k m gs0 hk hinv)
    | none =>
      rw [List.foldl_cons, show partitionStep (gs0, ung0) m = (gs0, ung0 ++ [m])
        from by simp [partitionStep, hk]]
      exact ih gs0 (ung0 ++ [m]) hinv

theorem partition_foldl_ne_nil (raw : List QMsg) :
    ∀ (gs0 : List ((Int × Int) × List QMsg)) (ung0 : List QMsg),
      (∀ e ∈ gs0, e.2 ≠ []) →
      ∀ e ∈ (raw.foldl partitionStep (gs0, ung0)).1, e.2 ≠ [] := by
  induction raw with
  | nil => intro gs0 ung0 hinv; exact hinv
  | cons m raw' ih =>
    intro gs0 ung0 hinv
    cases hk : qKey m with
    | some k =>
      rw [List.foldl_cons, show partitionStep (gs0, ung0) m = (addToGroups k m gs0, ung0)
        from by simp [partitionStep, hk]]
      exact ih (addToGroups k m gs0) ung0 (addToGroups_ne_nil k m gs0 hinv)
    | none =>
      rw [List.foldl_cons, show partitionStep (gs0, ung0) m = (gs0, ung0 ++ [m])
        from by simp [partitionStep, hk]]
      exact ih gs0 (ung0 ++ [m]) hinv

theorem partition_foldl_ungrouped (raw : List QMsg) :
    ∀ (gs0 : List ((Int × Int) × List QMsg)) (ung0 : List QMsg),
      (raw.foldl partitionStep (gs0, ung0)).2
        = ung0 ++ raw.filter (fun m => (qKey m).isNone) := by
  induction raw with
  | nil => intro gs0 ung0; simp
  | cons m raw' ih =>
    intro gs0 ung0
    cases hk : qKey m with
    | some k =>
      rw [List.foldl_cons, show partitionStep (gs0, ung0) m = (addToGroups k m gs0, ung0)
        from by simp [partitionStep, hk]]
      rw [ih (addToGroups k m gs0) ung0]
      simp [List.filter_cons, hk]
    | none =>
      rw [List.foldl_cons, show partitionStep (gs0, ung0) m = (gs0, ung0 ++ [m])
        from by simp [partitionStep, hk]]
      rw [ih gs0 (ung0 ++ [m])]
      simp [List.filter_cons, hk]

theorem qKey_channel_id (m : QMsg) (k : Int × Int) (h : qKey m = some k) :
    m.channel_id = some k.1 := by
  unfold qKey at h
  cases hc : m.channel_id with
  | none =>
    simp only [hc] at h
    exact absurd h (by simp)
  | some c =>
    cases hg : m.grouped_id with
    | none =>
      simp only [hc, hg] at h
      exact absurd h (by simp)
    | some g =>
      simp only [hc, hg] at h
      by_cases hcond : g ≠ 0 ∧ c ≠ 0
      · rw [if_pos hcond] at h
        obtain rfl : (c, g) = k := Option.some_inj.mp h
        rfl
      · rw [if_neg hcond] at h
        exact absurd h (by simp)

theorem albumPairs_albumOfGroup (k : Int × Int) (ms : List QMsg) (hne : ms ≠ [])
    (hinv : ∀ m' ∈ ms, qKey m' = some k) :
    (albumPairs (albumOfGroup ms)).Perm (ms.map pairOf) := by
  have hperm : (sortById ms).Perm ms := List.perm_insertionSort _ _
  have hsne : sortById ms ≠ [] := by
    intro h
    apply hne
    have hl := hperm.length_eq
    rw [h] at hl
    exact List.length_eq_zero.mp hl.symm
  have hbase0 : (sortById ms).headD {id := 0} ∈ sortById ms := by
    cases hs : sortById ms with
    | nil => exact absurd hs hsne
    | cons a l => simp [hs]
  have hbase0_ch : ((sortById ms).headD {id := 0}).channel_id = some k.1 :=
    qKey_channel_id _ k (hinv _ (hperm.mem_iff.mp hbase0))
  have hbase_ch : (albumOfGroup ms).base.channel_id = some k.1 := by
    unfold albumOfGroup
    cases hf : (sortById ms).find? msgTruthy <;> simp only [hf] <;> exact hbase0_ch
  have hids : (albumOfGroup ms).album_message_ids = (sortById ms).map (·.id) := by
    unfold albumOfGroup
    cases hf : (sortById ms).find? msgTruthy <;> simp only [hf]
  unfold albumPairs
  rw [hids, List.map_map]
  have hpt : ∀ m' ∈ sortById ms,
      ((fun i => ((albumOfGroup ms).base.channel_id, i)) ∘ (·.id)) m' = pairOf m' := by
    intro m' hm'
    have hch := qKey_channel_id m' k (hinv m' (hperm.mem_iff.mp hm'))
    simp [pairOf, Function.comp, hbase_ch, hch]
  rw [List.map_congr_left hpt]
  exact hperm.map pairOf

theorem albumPairs_singleton (m : QMsg) : albumPairs (singletonAlbum m) = [pairOf m] := rfl

theorem flatMap_singleton_map {α β : Type} (f : α → β) (l : List α) :
    (l.flatMap fun a => [f a]) = l.map f := by
  induction l with
  | nil => rfl
  | cons a l ih => simp [ih]

theorem sortTake_perm (xs : List Album) (limit : Nat) (reverse oldest_first : Bool)
    (hlen : xs.length ≤ limit) :
    (if oldest_first then (sortByDateAsc xs).take limit
     else
       let result := (sortByDateDesc xs).take limit
       if !reverse then sortByDateAsc result else result).Perm xs := by
  have hasc : (sortByDateAsc xs).Perm xs := List.perm_insertionSort _ _
  have hdesc : (sortByDateDesc xs).Perm xs := List.perm_insertionSort _ _
  by_cases ho : oldest_first = true
  · rw [if_pos ho, List.take_of_length_le (by rw [hasc.length_eq]; exact hlen)]
    exact hasc
  · rw [if_neg ho]
    have hr : (sortByDateDesc xs).take limit = sortByDateDesc xs :=
      List.take_of_length_le (by rw [hdesc.length_eq]; exact hlen)
    by_cases hrev : reverse = true
    · simp only [hrev, Bool.not_true, Bool.false_eq_true, if_false, hr]
      exact hdesc
    · have : reverse = false := Bool.eq_false_iff.mpr hrev
      simp only [this, Bool.not_false, if_true, hr]
      exact (List.perm_insertionSort _ _).trans hdesc

/-- C5: album regrouping is a partition.  Under the claim's side conditions —
the input's `(channel_id, id)` pairs are distinct and the limit is at least
the number of resulting albums — the output albums cover exactly the input's
`(channel_id, id)` pairs, no pair occurs in two output albums, and every
ungrouped input message survives as its own trivial album. -/
theorem c5_album_regroup_partition (raw : List QMsg) (limit : Nat)
    (reverse oldest_first : Bool) (hnodup : (raw.map pairOf).Nodup)
    (hlimit : albumCount raw ≤ limit) :
    ((group_album_messages raw limit reverse oldest_first).flatMap albumPairs).Perm
        (raw.map pairOf)
  ∧ List.Pairwise (fun a1 a2 => (albumPairs a1).Disjoint (albumPairs a2))
      (group_album_messages raw limit reverse oldest_first)
  ∧ ∀ m ∈ raw, qKey m = none →
      singletonAlbum m ∈ group_album_messages raw limit reverse oldest_first := by
  have hkeys : ∀ e ∈ (partitionMsgs raw).1, ∀ m' ∈ e.2, qKey m' = some e.1 :=
    partition_foldl_keys raw [] [] (by simp)
  have hnen : ∀ e ∈ (partitionMsgs raw).1, e.2 ≠ [] :=
    partition_foldl_ne_nil raw [] [] (by simp)
  have hung : (partitionMsgs raw).2 = raw.filter (fun m => (qKey m).isNone) := by
    have := partition_foldl_ungrouped raw [] []
    simpa [partitionMsgs] using this
  have hfold : (flatG (partitionMsgs raw).1 ++ (partitionMsgs raw).2).Perm raw := by
    have := partition_foldl_perm raw [] []
    simpa [partitionMsgs, flatG] using this
  set gs := (partitionMsgs raw).1 with hgs
  set ung := (partitionMsgs raw).2 with hungdef
  set combined := gs.map (fun kg => albumOfGroup kg.2) ++ ung.map singletonAlbum
    with hcombined
  have hcomblen : combined.length ≤ limit := by
    rw [hcombined]
    simpa [albumCount, ← hgs, ← hungdef] using hlimit
  have hres : (group_album_messages raw limit reverse oldest_first).Perm combined := by
    unfold group_album_messages
    exact sortTake_perm combined limit reverse oldest_first hcomblen
  have hflatcomb : (combined.flatMap albumPairs).Perm (raw.map pairOf) := by
    rw [hcombined, List.flatMap_append, List.flatMap_map, List.flatMap_map]
    have hgsperm : (gs.flatMap fun kg => albumPairs (albumOfGroup kg.2)).Perm
        (gs.flatMap fun kg => kg.2.map pairOf) :=
      List.Perm.flatMap_left gs fun kg hkg =>
        albumPairs_albumOfGroup kg.1 kg.2 (hnen kg hkg) (hkeys kg hkg)
    have hungeq : (ung.flatMap fun m => albumPairs (singletonAlbum m)) = ung.map pairOf := by
      simp only [albumPairs_singleton]
      exact flatMap_singleton_map pairOf ung
    refine ((hgsperm.append_right _).trans ?_)
    rw [hungeq]
    have hmapflat : (gs.flatMap fun kg => kg.2.map pairOf) = (flatG gs).map pairOf := by
      rw [flatG, List.map_flatMap]
    rw [hmapflat, ← List.map_append]
    exact hfold.map pairOf
  refine ⟨(hres.flatMap_right albumPairs).trans hflatcomb, ?_, ?_⟩
  · have hnd : ((group_album_messages raw limit reverse oldest_first).flatMap
        albumPairs).Nodup :=
      (((hres.flatMap_right albumPairs).trans hflatcomb).nodup_iff).mpr hnodup
    rw [List.flatMap_def] at hnd
    have hpw := (List.nodup_flatten.mp hnd).2
    exact List.pairwise_map.mp hpw
  · intro m hm hkey
    have hmem : m ∈ ung := by
      rw [hung]
      exact List.mem_filter.mpr ⟨hm, by simp [hkey]⟩
    have : singletonAlbum m ∈ combined := by
      rw [hcombined]
      exact List.mem_append_right _ (List.mem_map_of_mem singletonAlbum hmem)
    exact hres.mem_iff.mpr this

/-- A three-message input: a two-member album and one ungrouped message. -/
def c5raw : List QMsg :=
  [{channel_id := some 1, id := 1, grouped_id := some 5, date := some 10},
   {channel_id := some 1, id := 2, grouped_id := some 5, date := some 11},
   {channel_id := some 1, id := 3, date := some 12}]

theorem c5_album_regroup_partition_witness :
    ((group_album_messages c5raw 10 false false).flatMap albumPairs).Perm
        (c5raw.map pairOf)
  ∧ singletonAlbum {channel_id := some 1, id := 3, date := some 12}
      ∈ group_album_messages c5raw 10 false false :=
  ⟨(c5_album_regroup_partition c5raw 10 false false (by decide) (by decide)).1,
   (c5_album_regroup_partition c5raw 10 false false (by decide) (by decide)).2.2
     {channel_id := some 1, id := 3, date := some 12} (by decide) (by decide)⟩

end Tgfeed
